import Mathlib

/-!
Shallow embedding of the `xlogging` Go library (github.com/iota101/xlogging)
for checking its natural-language specification.

Each definition is translated from one Go function of the repository:
  * `level.go`   : `Level` (= `slog.Level`, an integer), `ParseLevel`
  * `env.go`     : `Env`, `defaultLevelForEnv`
  * `options.go` : `config`, `shouldUseColor`, `shouldUseJSON`
  * `logger.go`  : `createHandler`
  * `handler.go` : `contextHandler.Handle`
  * `color.go`   : `colorHandler` (`Handle`, `writeAttr`, `WithAttrs`,
                   `WithGroup`, `levelColor`, `levelString`)
  * `mock.go`    : `TestLogger` and its operations

Go mutable state is made explicit: the shared output sink and the
shared entry slice of `TestLogger` are threaded as explicit state values, and
methods that in Go could mutate their receiver return the (unchanged)
receiver next to the derived child, so that absence of receiver mutation is
a provable equation rather than an artifact of purity.
-/

set_option autoImplicit false

namespace XLogging

/-! ### Severity levels (`level.go`)

`Level` is an alias for `slog.Level`, an integer; the named constants are
`slog.LevelDebug = -4`, `slog.LevelInfo = 0`, `slog.LevelWarn = 4`,
`slog.LevelError = 8`. -/

abbrev Level := Int

def LevelDebug : Level := -4
def LevelInfo : Level := 0
def LevelWarn : Level := 4
def LevelError : Level := 8

/-- Model of Go `unicode.IsSpace`: the complete Unicode White_Space set —
U+0009–U+000D, U+0020, U+0085 (NEL), U+00A0 (NBSP), U+1680 (Ogham space
mark), U+2000–U+200A, U+2028, U+2029, U+202F, U+205F and U+3000. -/
def isSpaceChar (c : Char) : Bool :=
  c = ' ' || c = '\t' || c = '\n' || c = '\x0b' || c = '\x0c' || c = '\r' ||
  c = '\x85' || c = '\xa0' || c = '\u1680' ||
  ('\u2000' ≤ c && c ≤ '\u200a') ||
  c = '\u2028' || c = '\u2029' || c = '\u202f' || c = '\u205f' || c = '\u3000'

/-- Model of Go `strings.TrimSpace`: drop leading and trailing Unicode
white space (the predicate above is exactly what `unicode.IsSpace`
recognizes). -/
def goTrimSpace (s : String) : String :=
  String.mk (((s.data.dropWhile isSpaceChar).reverse.dropWhile isSpaceChar).reverse)

/-- Model of the per-rune lowering Go `strings.ToLower` performs via
`unicode.ToLower`, exact on every code point whose Go lowercase is an
ASCII character: the ASCII uppercase letters, U+0130 (LATIN CAPITAL LETTER
I WITH DOT ABOVE, simple lowercase mapping U+0069 `i`) and U+212A (KELVIN
SIGN, simple lowercase mapping U+006B `k`). Every other code point is kept
unchanged. U+0130 and U+212A are the only code points outside ASCII that
Unicode simple-lowercases into ASCII, and the five severity keywords are
pure ASCII, so `ParseLevel` computed with this fold agrees with the Go
program on every input string: a character this model leaves unchanged
either is already its own Go lowercase in ASCII or never folds to a
keyword letter in Go. -/
def goCharToLower (c : Char) : Char :=
  if 'A' ≤ c ∧ c ≤ 'Z' then Char.ofNat (c.toNat + 32)
  else if c = '\u0130' then 'i'
  else if c = '\u212a' then 'k'
  else c

/-- Model of Go `strings.ToLower`: lower every rune. -/
def goToLower (s : String) : String :=
  String.mk (s.data.map goCharToLower)

/-- Go `ParseLevel` from `level.go`: case-insensitive, trimmed; `"warn"` and
`"warning"` both map to `LevelWarn`; anything unrecognized maps to
`LevelInfo`. (the Go `switch` on the folded string is a top-down first-match
chain.) -/
def ParseLevel (s : String) : Level :=
  let t := goToLower (goTrimSpace s)
  if t = "debug" then LevelDebug
  else if t = "info" then LevelInfo
  else if t = "warn" ∨ t = "warning" then LevelWarn
  else if t = "error" then LevelError
  else LevelInfo

/-! ### Environments (`env.go`) -/

inductive Env where
  | production
  | staging
  | development
deriving DecidableEq, Repr

/-- Go `defaultLevelForEnv` from `env.go`. -/
def defaultLevelForEnv (env : Env) : Level :=
  match env with
  | .production => LevelInfo
  | .staging | .development => LevelDebug

/-! ### Configuration (`options.go`)

The output sink of a config is `os.Stdout`, `os.Stderr`, or any other
`io.Writer` (a file, a buffer, ...); only the identity comparison against the
two standard streams matters to `shouldUseColor`, so the sink is modelled as
a three-way sum. The terminal probes `isStdoutTerminal` / `isStderrTerminal`
are external collaborators and are passed in as boolean parameters. -/

inductive SinkRef where
  | stdoutS
  | stderrS
  | otherSink (id : Nat)
deriving DecidableEq, Repr

structure Config where
  env : Env
  level : Level
  output : SinkRef
  contextKeys : List String
  addSource : Bool
  useColor : Option Bool
deriving DecidableEq, Repr

/-- Go `config.shouldUseColor` from `options.go`: an explicit override wins;
otherwise no color in production; otherwise color iff the output is stdout
or stderr and that stream is a terminal; any other sink gets no color. -/
def shouldUseColor (stdoutTerm stderrTerm : Bool) (c : Config) : Bool :=
  match c.useColor with
  | some b => b
  | none =>
    if c.env = .production then false
    else
      match c.output with
      | .stdoutS => stdoutTerm
      | .stderrS => stderrTerm
      | .otherSink _ => false

/-- Go `config.shouldUseJSON` from `options.go`. -/
def shouldUseJSON (c : Config) : Bool :=
  c.env = .production

/-! ### Handler chain construction (`logger.go`)

`createHandler` builds one of three leaves and optionally wraps it in a
`contextHandler`; the handler chain is modelled as a small tree. -/

inductive HandlerTree where
  | jsonH (level : Level) (addSource : Bool)
  | textH (level : Level) (addSource : Bool)
  | colorH (level : Level) (addSource : Bool) (contextKeys : List String)
  | ctxH (inner : HandlerTree) (keys : List String)
deriving DecidableEq, Repr

/-- The trailing `if len(cfg.contextKeys) > 0` wrap of `createHandler`. -/
def wrapIfKeys (base : HandlerTree) (keys : List String) : HandlerTree :=
  if keys.length > 0 then .ctxH base keys else base

/-- Go `createHandler` from `logger.go`: JSON leaf when `shouldUseJSON`;
otherwise the color leaf is returned immediately (never wrapped) when
`shouldUseColor`; otherwise the text leaf; JSON and text leaves get the
trailing context wrap when the key list is non-empty. -/
def createHandler (stdoutTerm stderrTerm : Bool) (cfg : Config) : HandlerTree :=
  if shouldUseJSON cfg then
    wrapIfKeys (.jsonH cfg.level cfg.addSource) cfg.contextKeys
  else if shouldUseColor stdoutTerm stderrTerm cfg then
    .colorH cfg.level cfg.addSource cfg.contextKeys
  else
    wrapIfKeys (.textH cfg.level cfg.addSource) cfg.contextKeys

/-- Discriminator: is the chain exactly an unwrapped colorized leaf? -/
def isColorLeaf : HandlerTree → Bool
  | .colorH _ _ _ => true
  | _ => false

/-! ### Attributes and records (`log/slog` data reaching this library)

A `slog.Value` reaching this code is nil, a string, some other scalar
(modelled by an integer payload), or a named group of attributes
(recursively). `AttrList` is the in-order list of the attributes of a record;
keeping it as its own inductive gives structural recursion for the
depth-first group flattening of `colorHandler.writeAttr`. -/

mutual
inductive AttrValue where
  | vNil
  | vStr (s : String)
  | vInt (n : Int)
  | vGroup (members : AttrList)

inductive AttrList where
  | nil
  | cons (key : String) (value : AttrValue) (rest : AttrList)
end

deriving instance DecidableEq for AttrValue, AttrList

namespace AttrList

def append : AttrList → AttrList → AttrList
  | .nil, ys => ys
  | .cons k v rest, ys => .cons k v (append rest ys)

def ofPairs : List (String × String) → AttrList
  | [] => .nil
  | (k, s) :: rest => .cons k (.vStr s) (ofPairs rest)

end AttrList

/-- A `slog.Record` as consumed by the handlers: a pre-formatted time
string (the result of `r.Time.Format(time.TimeOnly)`), level, message and
attribute sequence. -/
structure Record where
  timeStr : String
  level : Level
  msg : String
  attrs : AttrList
deriving DecidableEq

/-- A `context.Context` as read by this library: a lookup from key to the
stored value, `none` when `ctx.Value` returns nil. -/
def Ctx := String → Option AttrValue

/-! ### Context-attribute injector (`handler.go`)

`contextHandler.Handle` collects, in key-list order, the configured keys
whose context value is a non-empty string; when any are collected it clones
the record (`r.Clone()`) and appends them, otherwise it delegates the
original record untouched. The returned `Bool` records whether the
delegated record is such a clone (`true`) or the original object
(`false`). -/

/-- The collection loop of `contextHandler.Handle`. -/
def collectCtx (keys : List String) (c : Ctx) : List (String × String) :=
  match keys with
  | [] => []
  | k :: rest =>
    (match c k with
     | some (.vStr s) => if s ≠ "" then [(k, s)] else []
     | _ => []) ++ collectCtx rest c

/-- Go `contextHandler.Handle` (the record it passes to the wrapped handler,
paired with whether that record is a clone). -/
def contextHandle (keys : List String) (octx : Option Ctx) (r : Record) :
    Record × Bool :=
  match octx with
  | none => (r, false)
  | some c =>
    if keys.length > 0 then
      let attrs := collectCtx keys c
      if attrs.length > 0 then
        ({ r with attrs := r.attrs.append (AttrList.ofPairs attrs) }, true)
      else (r, false)
    else (r, false)

/-! ### Colorized renderer (`color.go`) -/

def colorReset : String := "\x1b[0m"
def colorRed : String := "\x1b[31m"
def colorGreen : String := "\x1b[32m"
def colorYellow : String := "\x1b[33m"
def colorBlue : String := "\x1b[34m"
def colorCyan : String := "\x1b[36m"
def colorGray : String := "\x1b[90m"
def colorBold : String := "\x1b[1m"

/-- Go `colorHandler.levelColor`. -/
def levelColor (level : Level) : String :=
  if level ≥ LevelError then colorRed
  else if level ≥ LevelWarn then colorYellow
  else if level ≥ LevelInfo then colorGreen
  else colorBlue

/-- Go `colorHandler.levelString`. -/
def levelString (level : Level) : String :=
  if level ≥ LevelError then "ERROR"
  else if level ≥ LevelWarn then "WARN"
  else if level ≥ LevelInfo then "INFO"
  else "DEBUG"

/-- The Go `%-5s` verb: left-justify in a field of width 5, padding with
spaces on the right. -/
def padTo5 (s : String) : String :=
  s ++ String.mk (List.replicate (5 - s.length) ' ')

/-- The Go `%v` verb applied to `a.Value.Any()` for the values a leaf
attribute can carry here. -/
def showVal : AttrValue → String
  | .vNil => "<nil>"
  | .vStr s => s
  | .vInt n => toString n
  | .vGroup _ => "<group>"

/-- The dotted key built by the `for i := len(groups) - 1; i >= 0; i--`
loop of `writeAttr`. -/
def dottedKey (groups : List String) (key : String) : String :=
  groups.foldr (fun g k => g ++ "." ++ k) key

mutual
/-- Go `colorHandler.writeAttr`: the bytes it writes for one attribute, given
the current group stack. An attribute equal to the zero `slog.Attr{}`
(empty key, nil value) is skipped; a group value recurses depth-first with
the key of the group pushed onto the stack; a leaf writes
`" " ++ cyan ++ dottedKey ++ reset ++ "=" ++ value`. -/
def writeAttr (key : String) (v : AttrValue) (groups : List String) : String :=
  if key = "" ∧ v = .vNil then ""
  else
    match v with
    | .vGroup members => writeAttrs members (groups ++ [key])
    | _ => " " ++ colorCyan ++ dottedKey groups key ++ colorReset ++ "=" ++ showVal v

/-- The loop over the members of a group inside `writeAttr` (and over the
attributes of a record inside `Handle`). -/
def writeAttrs : AttrList → List String → String
  | .nil, _ => ""
  | .cons k v rest, groups => writeAttr k v groups ++ writeAttrs rest groups
end

/-! ### Colorized handler state and `Handle`

The handler view (accumulated attrs, group stack, minimum level, key
list); the shared writer is threaded explicitly as a `Sink`. A broken sink
(e.g. a closed pipe) rejects every write with an error, which is exactly
what the ignored return value of `fmt.Fprintf` would have reported. -/

structure ColorHandler where
  level : Level
  addSource : Bool
  attrs : AttrList
  groups : List String
  contextKeys : List String
deriving DecidableEq

/-- Go `newColorHandler` with non-nil options, as `createHandler` calls it. -/
def newColorHandler (opts : Config) : ColorHandler :=
  { level := opts.level
    addSource := opts.addSource
    attrs := .nil
    groups := []
    contextKeys := opts.contextKeys }

structure Sink where
  buf : String
  broken : Bool
deriving DecidableEq

/-- One `fmt.Fprintf(h.w, ...)` call: the written bytes land in the buffer
on success; a broken sink writes nothing and reports an error. -/
def writeSink (s : Sink) (out : String) : Sink × Option String :=
  if s.broken then (s, some ("broken pipe"))
  else ({ s with buf := s.buf ++ out }, none)

/-- Go `colorHandler.Enabled`. -/
def colorEnabled (h : ColorHandler) (level : Level) : Bool :=
  level ≥ h.level

/-- The inline context-value loop of `colorHandler.Handle` (step 4 of the
rendered line): ambient keys with non-empty string values, in key-list
order. -/
def ctxSegments (keys : List String) (c : Ctx) : String :=
  match keys with
  | [] => ""
  | k :: rest =>
    (match c k with
     | some (.vStr s) =>
       if s ≠ "" then
         " " ++ colorCyan ++ k ++ colorReset ++ "=" ++ colorGray ++ s ++ colorReset
       else ""
     | _ => "") ++ ctxSegments rest c

/-- The level field of the rendered line:
`fmt.Fprintf(h.w, "%s%s%-5s%s ", levelColor, colorBold, levelStr, colorReset)`. -/
def levelSegment (level : Level) : String :=
  levelColor level ++ colorBold ++ padTo5 (levelString level) ++ colorReset ++ " "

/-- Go `colorHandler.Handle`: writes the line fragments in order (time, level,
message, inline context values, pre-set attrs, record attrs, newline),
*discarding* the error result of every single write — as the Go code
does — and finally returns `nil` (`none`). The sink is threaded through
each write. Go issues one `Fprintf` per fragment (one per context key, one
per attribute leaf); since the sink is append-only and a broken sink fails
every write alike, consecutive fragments are coalesced into one `writeSink`
per line section without changing the observable buffer or error. -/
def colorHandle (h : ColorHandler) (octx : Option Ctx) (r : Record) (s : Sink) :
    Sink × Option String :=
  let (s, _) := writeSink s (colorGray ++ r.timeStr ++ colorReset ++ " ")
  let (s, _) := writeSink s (levelSegment r.level)
  let (s, _) := writeSink s (colorBold ++ r.msg ++ colorReset)
  let (s, _) :=
    match octx with
    | some c =>
      if h.contextKeys.length > 0 then writeSink s (ctxSegments h.contextKeys c)
      else (s, none)
    | none => (s, none)
  let (s, _) := writeSink s (writeAttrs h.attrs h.groups)
  let (s, _) := writeSink s (writeAttrs r.attrs h.groups)
  let (s, _) := writeSink s ("\n")
  (s, none)

/-- Go `colorHandler.WithAttrs`: Go copies `h.attrs` into a fresh slice and
appends; the receiver is never written through, so the pair returned here
is (receiver as the method leaves it, derived child). -/
def colorWithAttrs (h : ColorHandler) (as_ : AttrList) : ColorHandler × ColorHandler :=
  (h, { h with attrs := h.attrs.append as_ })

/-- Go `colorHandler.WithGroup`: fresh group slice with `name` appended. -/
def colorWithGroup (h : ColorHandler) (name : String) : ColorHandler × ColorHandler :=
  (h, { h with groups := h.groups ++ [name] })

/-! ### Test logger (`mock.go`)

`TestLogger` holds a *pointer* to a shared entry slice. The model splits it
into a per-instance view (`TLView`: accumulated attribute map and group
string) and the shared store (`Store`: the entry list behind the pointer),
threaded explicitly. The Go attribute map is modelled as an association
list with replace-on-insert, which has the same lookup behaviour. -/

structure LogEntry where
  level : Level
  msg : String
  attrs : List (String × AttrValue)
deriving DecidableEq

structure TLView where
  attrs : List (String × AttrValue)
  group : String
deriving DecidableEq

abbrev Store := List LogEntry

/-- Go `NewTestLogger`: empty attribute map, no group, fresh empty store. -/
def newTestLogger : TLView × Store := ({ attrs := [], group := "" }, [])

/-- Map assignment `m[k] = v`: replace the binding if the key exists,
otherwise add it. -/
def insertKV (m : List (String × AttrValue)) (k : String) (v : AttrValue) :
    List (String × AttrValue) :=
  match m with
  | [] => [(k, v)]
  | (k0, v0) :: rest =>
    if k0 = k then (k, v) :: rest else (k0, v0) :: insertKV rest k v

/-- Map lookup `m[k]`. -/
def lookupKV (m : List (String × AttrValue)) (k : String) : Option AttrValue :=
  match m with
  | [] => none
  | (k0, v0) :: rest => if k0 = k then some v0 else lookupKV rest k

/-- The `for i := 0; i < len(args)-1; i += 2` pairing loop shared by
`TestLogger.log` and `TestLogger.With`: arguments are consumed two at a
time; a pair whose first component is not a string is dropped whole; a
dangling last argument is never consumed. -/
def parsePairs : List AttrValue → List (String × AttrValue)
  | k :: v :: rest =>
    (match k with
     | .vStr s => [(s, v)]
     | _ => []) ++ parsePairs rest
  | _ => []

/-- The group qualification applied to parsed keys inside `TestLogger.log`:
`attrKey = t.group + "." + key` when a group is set. -/
def groupKey (group key : String) : String :=
  if group = "" then key else group ++ "." ++ key

/-- The entry built by `TestLogger.log`: the accumulated attributes
(unqualified), overlaid with the parsed pairs under the group-qualified
keys. -/
def mkEntry (t : TLView) (level : Level) (msg : String) (args : List AttrValue) :
    LogEntry :=
  { level := level
    msg := msg
    attrs := (parsePairs args).foldl
      (fun m kv => insertKV m (groupKey t.group kv.1) kv.2) t.attrs }

/-- Go `TestLogger.log`: append the built entry to the shared store. -/
def testLog (t : TLView) (level : Level) (msg : String) (args : List AttrValue)
    (store : Store) : Store :=
  store ++ [mkEntry t level msg args]

/-- Go `TestLogger.With`: the child copies the attribute map and overlays the
parsed pairs (unqualified), keeps the group, and shares the store; the
receiver is only read, so the pair is (receiver as the method leaves it,
derived child). -/
def testWith (t : TLView) (args : List AttrValue) : TLView × TLView :=
  (t, { attrs := (parsePairs args).foldl (fun m kv => insertKV m kv.1 kv.2) t.attrs
        group := t.group })

/-- Go `TestLogger.WithGroup`: the child copies the attribute map and extends
the group by dot-joining; shares the store. -/
def testWithGroup (t : TLView) (name : String) : TLView × TLView :=
  (t, { attrs := t.attrs
        group := if t.group = "" then name else t.group ++ "." ++ name })

/-- Does `sub` occur as a contiguous run inside `l`? -/
def hasInfixOf (sub : List Char) : List Char → Bool
  | [] => sub.isEmpty
  | c :: rest => sub.isPrefixOf (c :: rest) || hasInfixOf sub rest

/-- Go `strings.Contains`. -/
def containsSubstr (s sub : String) : Bool :=
  hasInfixOf sub.data s.data

/-- Go `TestLogger.HasEntry`. -/
def hasEntry (store : Store) (level : Level) (msgSub : String) : Bool :=
  store.any fun e => e.level = level && containsSubstr e.msg msgSub

/-- Go `TestLogger.HasEntryWithAttr`. -/
def hasEntryWithAttr (store : Store) (level : Level) (msgSub key : String)
    (value : AttrValue) : Bool :=
  store.any fun e =>
    e.level = level && containsSubstr e.msg msgSub &&
      (match lookupKV e.attrs key with
       | some v => v = value
       | none => false)

/-- Go `TestLogger.Clear`: truncate the shared store to empty. -/
def testClear (_store : Store) : Store := []

/-- Go `TestLogger.Len`. -/
def storeLen (store : Store) : Nat := store.length

/-- Go `TestLogger.Count`. -/
def storeCount (store : Store) (level : Level) : Nat :=
  (store.filter fun e => e.level = level).length

/-! ### Spec-side restatements (for refinement comparisons)

These two definitions follow the wording of the specification rather than
the Go control flow; the theorems below compare them with the
source-derived definitions. -/

/-- Spec wording for the injector: "for each key (in list order) ... if
present and is a non-empty string, collect it as a new attribute keyed by
the string form of the key". -/
def specCollect (keys : List String) (c : Ctx) : List (String × String) :=
  (keys.filter fun k =>
    match c k with
    | some (.vStr s) => decide (s ≠ "")
    | _ => false).map fun k =>
      (k, match c k with
          | some (.vStr s) => s
          | _ => "")

/-- A dot-joined key path, as the spec words it ("keys are prefixed by the
full dot-joined group-stack path"). -/
def dotJoined : List String → String
  | [] => ""
  | [p] => p
  | p :: q :: rest => p ++ "." ++ dotJoined (q :: rest)

/-- The bytes of one rendered leaf attribute. -/
def renderLeaf (kv : String × AttrValue) : String :=
  " " ++ colorCyan ++ kv.1 ++ colorReset ++ "=" ++ showVal kv.2

def renderLeaves : List (String × AttrValue) → String
  | [] => ""
  | kv :: rest => renderLeaf kv ++ renderLeaves rest

mutual
/-- Spec wording of the flattening rule: a leaf is rendered under the full
dot-joined group path extended by its own key; a nested named group
recurses depth-first with the path extended by the group name; the zero
attribute is skipped. -/
def specFlatten (path : List String) (key : String) (v : AttrValue) :
    List (String × AttrValue) :=
  if key = "" ∧ v = .vNil then []
  else
    match v with
    | .vGroup members => specFlattenList (path ++ [key]) members
    | _ => [(dotJoined (path ++ [key]), v)]

def specFlattenList (path : List String) : AttrList → List (String × AttrValue)
  | .nil => []
  | .cons k v rest => specFlatten path k v ++ specFlattenList path rest
end

/-! ### Concrete inputs used by witness and counterexample theorems -/

/-- A production config carrying an explicit color override and a context
key: `New(WithEnv(EnvProduction), WithColor(true), WithContextKeys(KeyRequestID))`
with the default stderr output. -/
def cfgProdColorKeys : Config :=
  { env := .production
    level := LevelInfo
    output := .stderrS
    contextKeys := [("request_id")]
    addSource := false
    useColor := some true }

/-- A development config on stdout with no override and one context key. -/
def cfgDevTerm : Config :=
  { env := .development
    level := LevelDebug
    output := .stdoutS
    contextKeys := [("request_id")]
    addSource := false
    useColor := none }

/-- A staging config writing to a buffer, no override, no keys. -/
def cfgStagingBuf : Config :=
  { env := .staging
    level := LevelDebug
    output := .otherSink 0
    contextKeys := []
    addSource := false
    useColor := none }

/-- A context carrying a request id, an empty trace id, and a non-string
user id. -/
def ctxEx : Ctx := fun k =>
  if k = "request_id" then some (.vStr ("req-123"))
  else if k = "trace_id" then some (.vStr (""))
  else if k = "user_id" then some (.vInt 7)
  else none

/-- A record with no attributes. -/
def recEx : Record :=
  { timeStr := "12:00:00", level := LevelInfo, msg := "request", attrs := .nil }

/-- A sink whose underlying stream fails every write (e.g. a broken pipe). -/
def brokenSink : Sink := { buf := "", broken := true }

/-! ## Theorems -/

/-- C2: `shouldUseColor` returns exactly the explicit override whenever one
is set (even under Production); with no override it returns false under
Production, and otherwise returns the terminal-probe result for stdout or
stderr and false for every other sink; and `shouldUseJSON` is true iff the
environment is Production. -/
theorem shouldUseColor_shouldUseJSON_spec (st se : Bool) (cfg : Config) :
    (∀ b, cfg.useColor = some b → shouldUseColor st se cfg = b) ∧
    (cfg.useColor = none → cfg.env = .production → shouldUseColor st se cfg = false) ∧
    (cfg.useColor = none → cfg.env ≠ .production →
      ((cfg.output = .stdoutS → shouldUseColor st se cfg = st) ∧
       (cfg.output = .stderrS → shouldUseColor st se cfg = se) ∧
       (∀ n, cfg.output = .otherSink n → shouldUseColor st se cfg = false))) ∧
    (shouldUseJSON cfg = true ↔ cfg.env = .production) := by
  refine ⟨?_, ?_, ?_, ?_⟩
  · intro b hb
    simp [shouldUseColor, hb]
  · intro h0 h1
    simp [shouldUseColor, h0, h1]
  · intro h0 h1
    refine ⟨?_, ?_, ?_⟩
    · intro ho
      simp [shouldUseColor, h0, h1, ho]
    · intro ho
      simp [shouldUseColor, h0, h1, ho]
    · intro n ho
      simp [shouldUseColor, h0, h1, ho]
  · simp [shouldUseJSON]

/-- Witness for C2 at a concrete config: an explicit `WithColor(true)`
override wins even under Production, where `shouldUseJSON` is true. -/
theorem shouldUseColor_shouldUseJSON_spec_witness :
    shouldUseColor false false cfgProdColorKeys = true ∧
    shouldUseJSON cfgProdColorKeys = true :=
  ⟨(shouldUseColor_shouldUseJSON_spec false false cfgProdColorKeys).1 true rfl,
   (shouldUseColor_shouldUseJSON_spec false false cfgProdColorKeys).2.2.2.mpr rfl⟩

/-- C9: `ParseLevel` maps, case-insensitively after trimming, "debug" to
Debug, "info" to Info, "warn"/"warning" to Warn, "error" to Error, and
every other string (including the empty string) to Info. -/
theorem ParseLevel_spec (s : String) :
    (goToLower (goTrimSpace s) = "debug" → ParseLevel s = LevelDebug) ∧
    (goToLower (goTrimSpace s) = "info" → ParseLevel s = LevelInfo) ∧
    (goToLower (goTrimSpace s) = "warn" ∨ goToLower (goTrimSpace s) = "warning" →
      ParseLevel s = LevelWarn) ∧
    (goToLower (goTrimSpace s) = "error" → ParseLevel s = LevelError) ∧
    (goToLower (goTrimSpace s) ≠ "debug" →
      goToLower (goTrimSpace s) ≠ "info" →
      goToLower (goTrimSpace s) ≠ "warn" →
      goToLower (goTrimSpace s) ≠ "warning" →
      goToLower (goTrimSpace s) ≠ "error" →
      ParseLevel s = LevelInfo) := by
  refine ⟨?_, ?_, ?_, ?_, ?_⟩
  · intro h
    simp [ParseLevel, h]
  · intro h
    simp [ParseLevel, h]
  · intro h
    rcases h with h | h <;> simp [ParseLevel, h, LevelDebug, LevelInfo, LevelWarn]
  · intro h
    simp [ParseLevel, h, LevelDebug, LevelInfo, LevelWarn, LevelError]
  · intro h1 h2 h3 h4 h5
    simp [ParseLevel, h1, h2, h3, h4, h5]

/-- Witness for C9: `" WaRnInG\t"` trims and folds to `"warning"` and
parses to Warn; `"bogus"` parses to Info; a leading U+00A0 (NBSP) is
trimmed, so U+00A0 followed by `debug` parses to Debug; U+0130 folds to `i`, so
the string `WARN`, U+0130, `NG` parses to Warn. -/
theorem ParseLevel_spec_witness :
    ParseLevel (" WaRnInG\t") = LevelWarn ∧ ParseLevel ("bogus") = LevelInfo ∧
    ParseLevel ("\u00a0debug") = LevelDebug ∧
    ParseLevel ("WARN\u0130NG") = LevelWarn :=
  ⟨(ParseLevel_spec (" WaRnInG\t")).2.2.1 (Or.inr (by decide)),
   (ParseLevel_spec ("bogus")).2.2.2.2 (by decide) (by decide) (by decide)
     (by decide) (by decide),
   (ParseLevel_spec ("\u00a0debug")).1 (by decide),
   (ParseLevel_spec ("WARN\u0130NG")).2.2.1 (Or.inr (by decide))⟩

/-- C1 counterexample: under Production with an explicit `WithColor(true)`
override, `shouldUseColor` is true yet `createHandler` takes the JSON
branch first and wraps it in the context-injector, so the chain is not the
unwrapped colorized leaf the claim promises for every configuration with
`useColor() = true`. -/
theorem createHandler_color_unwrapped_cex :
    shouldUseColor true true cfgProdColorKeys = true ∧
    createHandler true true cfgProdColorKeys =
      .ctxH (.jsonH LevelInfo false) [("request_id")] ∧
    isColorLeaf (createHandler true true cfgProdColorKeys) = false := by
  refine ⟨rfl, by decide, by decide⟩

/-- C1 (amended): whenever the JSON branch is not taken and `useColor()` is
true, `createHandler` returns the colorized leaf unwrapped; on the JSON and
text branches the leaf is wrapped in a context-injector holding the
configured key list iff that list is non-empty. -/
theorem createHandler_spec (st se : Bool) (cfg : Config) :
    (shouldUseJSON cfg = false → shouldUseColor st se cfg = true →
      createHandler st se cfg = .colorH cfg.level cfg.addSource cfg.contextKeys) ∧
    (shouldUseJSON cfg = true →
      ((cfg.contextKeys ≠ [] →
         createHandler st se cfg =
           .ctxH (.jsonH cfg.level cfg.addSource) cfg.contextKeys) ∧
       (cfg.contextKeys = [] →
         createHandler st se cfg = .jsonH cfg.level cfg.addSource))) ∧
    (shouldUseJSON cfg = false → shouldUseColor st se cfg = false →
      ((cfg.contextKeys ≠ [] →
         createHandler st se cfg =
           .ctxH (.textH cfg.level cfg.addSource) cfg.contextKeys) ∧
       (cfg.contextKeys = [] →
         createHandler st se cfg = .textH cfg.level cfg.addSource))) := by
  refine ⟨?_, ?_, ?_⟩
  · intro hj hc
    simp [createHandler, hj, hc]
  · intro hj
    constructor
    · intro hk
      simp [createHandler, wrapIfKeys, hj, List.length_pos, hk]
    · intro hk
      simp [createHandler, wrapIfKeys, hj, hk]
  · intro hj hc
    constructor
    · intro hk
      simp [createHandler, wrapIfKeys, hj, hc, List.length_pos, hk]
    · intro hk
      simp [createHandler, wrapIfKeys, hj, hc, hk]

/-- Witness for C1 (amended) at concrete configs: a development config on
a stdout terminal yields the unwrapped color leaf; a staging config
writing to a buffer with no keys yields the bare text leaf. -/
theorem createHandler_spec_witness :
    createHandler true false cfgDevTerm =
      .colorH LevelDebug false [("request_id")] ∧
    createHandler false false cfgStagingBuf = .textH LevelDebug false :=
  ⟨(createHandler_spec true false cfgDevTerm).1 rfl rfl,
   ((createHandler_spec false false cfgStagingBuf).2.2 rfl rfl).2 rfl⟩

/-- The injector collection loop agrees with the filter-and-map
description: exactly the keys whose context value is a present, non-empty
string, in key-list order, each paired with that string. -/
theorem collectCtx_eq_spec (keys : List String) (c : Ctx) :
    collectCtx keys c = specCollect keys c := by
  induction keys with
  | nil => rfl
  | cons k rest ih =>
    rcases hck : c k with _ | v
    · simpa [collectCtx, specCollect, hck, List.filter_cons] using ih
    · rcases v with _ | s | n | ms
      · simpa [collectCtx, specCollect, hck, List.filter_cons] using ih
      · by_cases hs : s = ""
        · simpa [collectCtx, specCollect, hck, hs, List.filter_cons] using ih
        · simpa [collectCtx, specCollect, hck, hs, List.filter_cons] using ih
      · simpa [collectCtx, specCollect, hck, List.filter_cons] using ih
      · simpa [collectCtx, specCollect, hck, List.filter_cons] using ih

/-- C3: the context-injector collects exactly the configured keys whose
context value is a present non-empty string, in key-list order; with no
context or an empty key list or nothing collected it delegates the
original record unchanged (no clone); otherwise it delegates a clone with
the collected attributes appended after those already on the record. -/
theorem contextHandle_spec (keys : List String) (c : Ctx) (octx : Option Ctx)
    (r : Record) :
    collectCtx keys c = specCollect keys c ∧
    contextHandle keys none r = (r, false) ∧
    contextHandle [] octx r = (r, false) ∧
    (collectCtx keys c = [] → contextHandle keys (some c) r = (r, false)) ∧
    (collectCtx keys c ≠ [] →
      contextHandle keys (some c) r =
        ({ r with attrs := r.attrs.append (AttrList.ofPairs (collectCtx keys c)) },
         true)) := by
  refine ⟨collectCtx_eq_spec keys c, rfl, ?_, ?_, ?_⟩
  · rcases octx with _ | c0 <;> rfl
  · intro h
    rcases keys with _ | ⟨k, rest⟩
    · rfl
    · simp [contextHandle, h]
  · intro h
    rcases keys with _ | ⟨k, rest⟩
    · simp [collectCtx] at h
    · simp [contextHandle, h, List.length_pos]

/-- Witness for C3 at a concrete context: of the four predefined keys,
only `request_id` (present, non-empty) is collected and appended; the
empty `trace_id`, the non-string `user_id` and the absent `span_id` are
not; the delegated record is a clone. -/
theorem contextHandle_spec_witness :
    collectCtx [("request_id"), ("trace_id"), ("user_id"), ("span_id")] ctxEx ≠ [] ∧
    contextHandle [("request_id"), ("trace_id"), ("user_id"), ("span_id")]
        (some ctxEx) recEx =
      ({ recEx with
          attrs := recEx.attrs.append (AttrList.ofPairs
            (collectCtx [("request_id"), ("trace_id"), ("user_id"), ("span_id")] ctxEx)) },
       true) :=
  ⟨by decide,
   (contextHandle_spec [("request_id"), ("trace_id"), ("user_id"), ("span_id")]
     ctxEx none recEx).2.2.2.2 (by decide)⟩

/-- The dot-joined path of the group stack extended by a key equals the
key built by the right-to-left prefixing loop of `writeAttr`. -/
theorem dotJoined_append (groups : List String) (key : String) :
    dotJoined (groups ++ [key]) = dottedKey groups key := by
  induction groups with
  | nil => rfl
  | cons g rest ih =>
    rcases rest with _ | ⟨r, rs⟩
    · simp [dotJoined, dottedKey]
    · simp only [List.cons_append] at ih ⊢
      rw [show dotJoined (g :: r :: (rs ++ [key])) =
            g ++ "." ++ dotJoined (r :: (rs ++ [key])) from rfl, ih]
      rfl

theorem renderLeaves_append (a b : List (String × AttrValue)) :
    renderLeaves (a ++ b) = renderLeaves a ++ renderLeaves b := by
  induction a with
  | nil => simp [renderLeaves]
  | cons kv rest ih => simp [renderLeaves, ih, String.append_assoc]

mutual
/-- Go `writeAttr` realizes the flattening rule of the spec: its output is the
concatenation of one leaf segment per flattened (dot-joined-key, value)
pair. -/
theorem writeAttr_eq_spec (key : String) (v : AttrValue) (groups : List String) :
    writeAttr key v groups = renderLeaves (specFlatten groups key v) := by
  cases v with
  | vGroup members =>
    have hne : ¬(key = "" ∧ AttrValue.vGroup members = AttrValue.vNil) := by simp
    rw [writeAttr.eq_def, specFlatten.eq_def, if_neg hne, if_neg hne]
    exact writeAttrs_eq_spec members (groups ++ [key])
  | vNil =>
    by_cases hk : key = ""
    · subst hk
      have ht : ("" : String) = "" ∧ AttrValue.vNil = AttrValue.vNil := ⟨rfl, rfl⟩
      rw [writeAttr.eq_def, specFlatten.eq_def, if_pos ht, if_pos ht]
      rfl
    · have hne : ¬(key = "" ∧ AttrValue.vNil = AttrValue.vNil) := fun hcc => hk hcc.1
      rw [writeAttr.eq_def, specFlatten.eq_def, if_neg hne, if_neg hne]
      simp [renderLeaves, renderLeaf, dotJoined_append, showVal]
  | vStr s =>
    have hne : ¬(key = "" ∧ AttrValue.vStr s = AttrValue.vNil) := by simp
    rw [writeAttr.eq_def, specFlatten.eq_def, if_neg hne, if_neg hne]
    simp [renderLeaves, renderLeaf, dotJoined_append, showVal]
  | vInt n =>
    have hne : ¬(key = "" ∧ AttrValue.vInt n = AttrValue.vNil) := by simp
    rw [writeAttr.eq_def, specFlatten.eq_def, if_neg hne, if_neg hne]
    simp [renderLeaves, renderLeaf, dotJoined_append, showVal]

theorem writeAttrs_eq_spec (as_ : AttrList) (groups : List String) :
    writeAttrs as_ groups = renderLeaves (specFlattenList groups as_) := by
  cases as_ with
  | nil => rfl
  | cons k v rest =>
    rw [writeAttrs, specFlattenList, renderLeaves_append,
      writeAttr_eq_spec k v groups, writeAttrs_eq_spec rest groups]
end

/-- C4: every attribute is rendered under its key prefixed by the full
dot-joined group-stack path, with group values flattened depth-first by
extending the path with the group name, at arbitrary depth; in
particular the two-level nested group `\x7brequest: \x7bmethod: "GET"\x7d\x7d`
renders the flattened key `request.method=GET`. -/
theorem writeAttr_flattening_spec (key : String) (v : AttrValue)
    (groups : List String) (as_ : AttrList) :
    writeAttr key v groups = renderLeaves (specFlatten groups key v) ∧
    writeAttrs as_ groups = renderLeaves (specFlattenList groups as_) ∧
    writeAttr ("request") (.vGroup (.cons ("method") (.vStr ("GET")) .nil)) [] =
      " " ++ colorCyan ++ ("request.method") ++ colorReset ++ "=" ++ ("GET") :=
  ⟨writeAttr_eq_spec key v groups, writeAttrs_eq_spec as_ groups, by decide⟩

theorem lookupKV_insert_self (m : List (String × AttrValue)) (k : String)
    (v : AttrValue) : lookupKV (insertKV m k v) k = some v := by
  induction m with
  | nil => simp [insertKV, lookupKV]
  | cons kv rest ih =>
    rcases kv with ⟨k0, v0⟩
    by_cases hk : k0 = k
    · simp [insertKV, lookupKV, hk]
    · simp [insertKV, lookupKV, hk, ih]

theorem lookupKV_insert_other (m : List (String × AttrValue)) (k0 : String)
    (v0 : AttrValue) (k : String) (h : k0 ≠ k) :
    lookupKV (insertKV m k0 v0) k = lookupKV m k := by
  induction m with
  | nil => simp [insertKV, lookupKV, h]
  | cons kv rest ih =>
    rcases kv with ⟨k1, v1⟩
    by_cases hk : k1 = k0
    · subst hk
      simp [insertKV, lookupKV, h]
    · simp [insertKV, lookupKV, hk, ih]

theorem lookupKV_foldl_insert_none (f : String × AttrValue → String)
    (ps : List (String × AttrValue)) (m : List (String × AttrValue)) (k : String)
    (hm : lookupKV m k = none) (hps : ∀ kv ∈ ps, f kv ≠ k) :
    lookupKV (ps.foldl (fun acc kv => insertKV acc (f kv) kv.2) m) k = none := by
  induction ps generalizing m with
  | nil => simpa using hm
  | cons kv rest ih =>
    simp only [List.foldl_cons]
    apply ih
    · rw [lookupKV_insert_other _ _ _ _ (hps kv (List.mem_cons_self _ _))]
      exact hm
    · intro kv2 h2
      exact hps kv2 (List.mem_cons_of_mem _ h2)

/-- C5: children derived via `With`/`WithGroup` log into the same shared
entry sequence as the parent, so a parent query via `HasEntryWithAttr` finds an
entry written by a child together with the attribute the child accumulated; and `Clear`
through any holder of the shared sequence empties it for all holders,
making `Len`/`Count` zero. -/
theorem testLogger_shared_store_spec (parent : TLView) (store : Store)
    (l : Level) (m : String) (args largs : List AttrValue) (gname : String) :
    hasEntryWithAttr
        (testLog ((testWith parent [.vStr ("service"), .vStr ("api")]).2)
          LevelInfo ("child message") [] store)
        LevelInfo ("child") ("service") (.vStr ("api")) = true ∧
    testLog ((testWith parent args).2) l m largs store =
      store ++ [mkEntry ((testWith parent args).2) l m largs] ∧
    testLog ((testWithGroup parent gname).2) l m largs store =
      store ++ [mkEntry ((testWithGroup parent gname).2) l m largs] ∧
    storeLen (testLog ((testWith parent args).2) l m largs store) =
      storeLen store + 1 ∧
    testClear store = [] ∧
    storeLen (testClear store) = 0 ∧
    storeCount (testClear store) l = 0 := by
  refine ⟨?_, rfl, rfl, ?_, rfl, rfl, rfl⟩
  · have hcm : containsSubstr ("child message") ("child") = true := by decide
    have hlev :
        (mkEntry ((testWith parent [.vStr ("service"), .vStr ("api")]).2)
          LevelInfo ("child message") []).level = LevelInfo := rfl
    have hmsg :
        (mkEntry ((testWith parent [.vStr ("service"), .vStr ("api")]).2)
          LevelInfo ("child message") []).msg = ("child message") := rfl
    have hattr :
        (mkEntry ((testWith parent [.vStr ("service"), .vStr ("api")]).2)
            LevelInfo ("child message") []).attrs =
          insertKV parent.attrs ("service") (.vStr ("api")) := rfl
    unfold testLog
    rw [hasEntryWithAttr, List.any_append, Bool.or_eq_true]
    right
    simp only [List.any_cons, List.any_nil, Bool.or_false]
    rw [hlev, hmsg, hattr, lookupKV_insert_self]
    simp [hcm]
  · unfold testLog storeLen
    simp

/-- C6: the colorized renderer `Handle` discards the error result of
every write: on a sink whose writes all fail, the first write already
reports an error, yet `Handle` returns no error (`nil`) and the sink is
left untouched — the write failure is silently swallowed instead of being
surfaced as the claim requires. -/
theorem colorHandle_swallows_write_error (h : ColorHandler) (octx : Option Ctx)
    (r : Record) (s : Sink) (hbroken : s.broken = true) :
    (writeSink s (colorGray ++ r.timeStr ++ colorReset ++ " ")).2 =
      some ("broken pipe") ∧
    (colorHandle h octx r s).2 = none ∧
    (colorHandle h octx r s).1 = s := by
  refine ⟨by simp [writeSink, hbroken], ?_, ?_⟩
  · rcases octx with _ | c
    · simp [colorHandle, writeSink, hbroken]
    · by_cases hk : h.contextKeys.length > 0 <;>
        simp [colorHandle, writeSink, hbroken, hk]
  · rcases octx with _ | c
    · simp [colorHandle, writeSink, hbroken]
    · by_cases hk : h.contextKeys.length > 0 <;>
        simp [colorHandle, writeSink, hbroken, hk]

/-- Witness for C6 at the failing input: a handler built from a concrete
config, any record, and a broken-pipe sink. -/
theorem colorHandle_swallows_write_error_witness :
    (writeSink brokenSink (colorGray ++ recEx.timeStr ++ colorReset ++ " ")).2 =
      some ("broken pipe") ∧
    (colorHandle (newColorHandler cfgDevTerm) none recEx brokenSink).2 = none ∧
    (colorHandle (newColorHandler cfgDevTerm) none recEx brokenSink).1 =
      brokenSink :=
  colorHandle_swallows_write_error (newColorHandler cfgDevTerm) none recEx
    brokenSink rfl

/-- C7: `WithAttrs`/`WithGroup`/`With` leave the receiver untouched and
return a child whose accumulated attribute list or group stack extends
that of the parent; handling or logging through the original after deriving
a child behaves as before, and a key only the child added never appears in
an entry logged through the parent. -/
theorem derive_no_mutation_spec (h : ColorHandler) (as_ : AttrList)
    (gname : String) (t : TLView) (args : List AttrValue) (octx : Option Ctx)
    (r : Record) (s : Sink) (l : Level) (m : String) (largs : List AttrValue)
    (store : Store) :
    (colorWithAttrs h as_).1 = h ∧
    (colorWithAttrs h as_).2.attrs = h.attrs.append as_ ∧
    (colorWithAttrs h as_).2.groups = h.groups ∧
    (colorWithGroup h gname).1 = h ∧
    (colorWithGroup h gname).2.groups = h.groups ++ [gname] ∧
    (colorWithGroup h gname).2.attrs = h.attrs ∧
    colorHandle ((colorWithAttrs h as_).1) octx r s = colorHandle h octx r s ∧
    (testWith t args).1 = t ∧
    (testWith t args).2.group = t.group ∧
    (testWithGroup t gname).1 = t ∧
    testLog ((testWith t args).1) l m largs store = testLog t l m largs store ∧
    (∀ k, lookupKV t.attrs k = none →
      (∀ kv ∈ parsePairs largs, groupKey t.group kv.1 ≠ k) →
      lookupKV (mkEntry t l m largs).attrs k = none) := by
  refine ⟨rfl, rfl, rfl, rfl, rfl, rfl, rfl, rfl, rfl, rfl, rfl, ?_⟩
  intro k hk hkv
  exact lookupKV_foldl_insert_none _ _ _ _ hk hkv

/-- Witness for C7: a parent with no attributes logs after a child added
`service`; the entry logged by the parent has no `service` attribute. -/
theorem derive_no_mutation_spec_witness :
    lookupKV (mkEntry { attrs := [], group := "" } LevelInfo ("parent")
      [.vStr ("x"), .vInt 2]).attrs ("service") = none :=
  (derive_no_mutation_spec (newColorHandler cfgDevTerm) .nil ("g")
      { attrs := [], group := "" } [] none recEx brokenSink LevelInfo ("parent")
      [.vStr ("x"), .vInt 2] []).2.2.2.2.2.2.2.2.2.2.2 ("service") rfl (by decide)

/-- C8 counterexample: the level label is written with the Go verb `%-5s`, which
left-justifies and pads on the *right*; at Warn the written field is
`"WARN "`, not the left-padded `" WARN"` the claim states. -/
theorem levelSegment_leftpad_cex :
    levelSegment LevelWarn =
      colorYellow ++ colorBold ++ ("WARN ") ++ colorReset ++ " " ∧
    levelSegment LevelWarn ≠
      colorYellow ++ colorBold ++ (" WARN") ++ colorReset ++ " " := by
  constructor
  · decide
  · decide

/-- C8 (amended): the severity label is written bold, colored by the `>=`
chain from highest to lowest (so intermediate numeric severities classify
by the nearest label at or below them), and left-justified (right-padded)
to width 5. -/
theorem levelSegment_spec (l : Level) :
    (LevelError ≤ l → levelColor l = colorRed ∧ levelString l = "ERROR") ∧
    (LevelWarn ≤ l → l < LevelError →
      levelColor l = colorYellow ∧ levelString l = "WARN") ∧
    (LevelInfo ≤ l → l < LevelWarn →
      levelColor l = colorGreen ∧ levelString l = "INFO") ∧
    (l < LevelInfo → levelColor l = colorBlue ∧ levelString l = "DEBUG") ∧
    (padTo5 (levelString l)).length = 5 ∧
    levelSegment l =
      levelColor l ++ colorBold ++ padTo5 (levelString l) ++ colorReset ++ " " := by
  refine ⟨?_, ?_, ?_, ?_, ?_, rfl⟩
  · intro h1
    unfold levelColor levelString
    rw [if_pos h1, if_pos h1]
    exact ⟨rfl, rfl⟩
  · intro h1 h2
    unfold levelColor levelString
    rw [if_neg (not_le.mpr h2), if_pos h1, if_neg (not_le.mpr h2), if_pos h1]
    exact ⟨rfl, rfl⟩
  · intro h1 h2
    have hE : ¬LevelError ≤ l := not_le.mpr (h2.trans (by decide))
    have hW : ¬LevelWarn ≤ l := not_le.mpr h2
    unfold levelColor levelString
    rw [if_neg hE, if_neg hW, if_pos h1, if_neg hE, if_neg hW, if_pos h1]
    exact ⟨rfl, rfl⟩
  · intro h1
    have hE : ¬LevelError ≤ l := not_le.mpr (h1.trans (by decide))
    have hW : ¬LevelWarn ≤ l := not_le.mpr (h1.trans (by decide))
    have hI : ¬LevelInfo ≤ l := not_le.mpr h1
    unfold levelColor levelString
    rw [if_neg hE, if_neg hW, if_neg hI, if_neg hE, if_neg hW, if_neg hI]
    exact ⟨rfl, rfl⟩
  · unfold levelString
    by_cases hE : LevelError ≤ l
    · rw [if_pos hE]; decide
    · rw [if_neg hE]
      by_cases hW : LevelWarn ≤ l
      · rw [if_pos hW]; decide
      · rw [if_neg hW]
        by_cases hI : LevelInfo ≤ l
        · rw [if_pos hI]; decide
        · rw [if_neg hI]; decide

/-- Witness for C8 (amended) at Warn. -/
theorem levelSegment_spec_witness :
    levelColor LevelWarn = colorYellow ∧ levelString LevelWarn = "WARN" :=
  (levelSegment_spec LevelWarn).2.1 (by decide) (by decide)

/-- The two-at-a-time pairing loop never reads a dangling last argument:
for an odd-length argument list it produces the same pairs as for the list
with the last argument removed. -/
theorem parsePairs_dropLast_odd :
    (args : List AttrValue) → args.length % 2 = 1 →
      parsePairs args = parsePairs args.dropLast
  | [], hodd => absurd hodd (by decide)
  | [_], _ => rfl
  | [_, _], hodd => absurd hodd (by simp)
  | k :: v :: r :: rs, hodd => by
    have hr : (r :: rs).length % 2 = 1 := by
      simp only [List.length_cons] at hodd ⊢
      omega
    have ih := parsePairs_dropLast_odd (r :: rs) hr
    have hdl : (k :: v :: r :: rs).dropLast = k :: v :: (r :: rs).dropLast := rfl
    rw [hdl]
    simp only [parsePairs]
    rw [ih]

/-- C10: a `TestLogger` log call with an odd number of variadic arguments
silently ignores the final unpaired argument: the appended entry carries
the given level and message, and exactly the pairs of the argument list
with the dangling argument removed. -/
theorem testLog_odd_dangling_spec (t : TLView) (l : Level) (m : String)
    (args : List AttrValue) (store : Store) (hodd : args.length % 2 = 1) :
    parsePairs args = parsePairs args.dropLast ∧
    testLog t l m args store = store ++ [mkEntry t l m args.dropLast] ∧
    (mkEntry t l m args).level = l ∧ (mkEntry t l m args).msg = m := by
  have hp := parsePairs_dropLast_odd args hodd
  refine ⟨hp, ?_, rfl, rfl⟩
  unfold testLog mkEntry
  rw [hp]

/-- Witness for C10 at a concrete odd argument list. -/
theorem testLog_odd_dangling_spec_witness :
    parsePairs [.vStr ("k"), .vStr ("v"), .vStr ("dangling")] =
      parsePairs ([.vStr ("k"), .vStr ("v"), .vStr ("dangling")].dropLast) :=
  (testLog_odd_dangling_spec { attrs := [], group := "" } LevelInfo ("msg")
    [.vStr ("k"), .vStr ("v"), .vStr ("dangling")] [] (by decide)).1

end XLogging
